import Mathlib

/-!
Verification development for the hdtSMP64 skinned-mesh collision pipeline
(`hdtSkinnedMesh/hdtSkinnedMeshAlgorithm.cpp`).

The C++ code is shallowly embedded over exact rationals: `float` becomes `ℚ`,
3-vectors become triples of rationals, pointers to colliders and rigid bodies
become identifiers, and fallible operations return `Option`.  `FLT_EPSILON`
is the exact rational `2⁻²³`.
-/

unseal Rat.add Rat.sub Rat.mul Rat.inv Nat.sqrt.iter

namespace Hdt

/-- Three-component vector over exact rationals, standing in for `btVector3`. -/
abbrev Vec3 : Type := ℚ × ℚ × ℚ

/-- Componentwise vector addition. -/
def vadd (a b : Vec3) : Vec3 := (a.1 + b.1, a.2.1 + b.2.1, a.2.2 + b.2.2)

/-- Componentwise vector subtraction. -/
def vsub (a b : Vec3) : Vec3 := (a.1 - b.1, a.2.1 - b.2.1, a.2.2 - b.2.2)

/-- Scalar multiple of a vector. -/
def vscale (c : ℚ) (v : Vec3) : Vec3 := (c * v.1, c * v.2.1, c * v.2.2)

/-- Vector negation (`operator-` on `btVector3`). -/
def vneg (v : Vec3) : Vec3 := (-v.1, -v.2.1, -v.2.2)

/-- Dot product. -/
def vdot (a b : Vec3) : ℚ := a.1 * b.1 + a.2.1 * b.2.1 + a.2.2 * b.2.2

/-- Cross product. -/
def vcross (a b : Vec3) : Vec3 :=
  (a.2.1 * b.2.2 - a.2.2 * b.2.1,
   a.2.2 * b.1 - a.1 * b.2.2,
   a.1 * b.2.1 - a.2.1 * b.1)

/-- The constant `FLT_EPSILON` as an exact rational: `2⁻²³`. -/
def eps : ℚ := 1 / 8388608

/-- Exact rational square root for perfect-square rationals: used only at
concrete inputs whose squared distances are perfect squares, where it agrees
with the real square root. -/
def sqrtQ (q : ℚ) : ℚ := (Nat.sqrt q.num.toNat : ℚ) / (Nat.sqrt q.den : ℚ)

/-- A primitive collider (`hdt::Collider`): a vertex index for point
colliders, three vertex indices for triangle colliders, and the per-collider
flexibility coefficient. -/
structure Collider where
  vertex : ℕ
  vertices : ℕ × ℕ × ℕ
  flexible : ℚ
deriving DecidableEq, Inhabited

/-- A contact produced by the narrow phase (`hdt::CollisionResult`). -/
structure CollisionResult where
  posA : Vec3
  posB : Vec3
  normOnB : Vec3
  depth : ℚ
  colliderA : Collider
  colliderB : Collider
deriving DecidableEq, Inhabited

/-- A vertex of a skinned mesh as the collision code reads it: its position
(`pos()`) and per-vertex margin multiplier (`marginMultiplier()`). -/
structure VertexPos where
  pos : Vec3
  marginMultiplier : ℚ
deriving DecidableEq, Inhabited

/-- Shape properties of a per-vertex shape (`PerVertexShape::ShapeProp`). -/
structure ShapePropV where
  margin : ℚ
deriving DecidableEq, Inhabited

/-- Shape properties of a per-triangle shape (`PerTriangleShape::ShapeProp`). -/
structure ShapePropT where
  margin : ℚ
  penetration : ℚ
deriving DecidableEq, Inhabited

/-- Modelled from the spec: the function `checkSphereSphere` (declared in the skinned-mesh
shape headers, not among the provided sources).  The spec fixes the contract:
overlap iff `|s1-s0| < r0+r1`, depth `= |s1-s0| - (r0+r1)` (negative means
penetrating), normal the unit vector from A to B, and a coincident/degenerate
sphere pair is treated as non-overlapping.  Contact positions are taken on
each sphere's surface along the center line.  The overlap test is phrased on
squared lengths, and `sqrtQ` stands in for the square root (exact on the
perfect-square distances used at concrete inputs). -/
def checkSphereSphere (s0 s1 : Vec3) (r0 r1 : ℚ) : Option CollisionResult :=
  let d := vsub s1 s0
  let len2 := vdot d d
  if len2 = 0 then none
  else if len2 < (r0 + r1) * (r0 + r1) then
    let len := sqrtQ len2
    let n := vscale (1 / len) d
    some { posA := vadd s0 (vscale r0 n)
           posB := vsub s1 (vscale r1 n)
           normOnB := n
           depth := len - (r0 + r1)
           colliderA := default
           colliderB := default }
  else none

/-- The sphere-sphere `checkCollide` exactly as written in
`CollisionChecker<PerVertexShape, SwapResults>::checkCollide`
(`hdtSkinnedMeshAlgorithm.cpp` lines 120-131): note that the source reads
`v0[a->vertex]` and `sp0->margin` for BOTH spheres. -/
def checkCollidePV (v0 v1 : ℕ → VertexPos) (sp0 sp1 : ShapePropV)
    (a b : Collider) : Option CollisionResult :=
  let s0 := v0 a.vertex
  let r0 := s0.marginMultiplier * sp0.margin
  let s1 := v0 a.vertex
  let r1 := s1.marginMultiplier * sp0.margin
  (checkSphereSphere s0.pos s1.pos r0 r1).map
    (fun res => { res with colliderA := a, colliderB := b })

/-- The sphere-sphere `checkCollide` as the spec describes it (centers are
a's vertex in A's buffer and b's vertex in B's buffer, each radius from its
own shape's margin): the intended version of `checkCollidePV`. -/
def checkCollidePVIntended (v0 v1 : ℕ → VertexPos) (sp0 sp1 : ShapePropV)
    (a b : Collider) : Option CollisionResult :=
  let s0 := v0 a.vertex
  let r0 := s0.marginMultiplier * sp0.margin
  let s1 := v1 b.vertex
  let r1 := s1.marginMultiplier * sp1.margin
  (checkSphereSphere s0.pos s1.pos r0 r1).map
    (fun res => { res with colliderA := a, colliderB := b })

/-- Concrete scenario of the spec: body A's vertex 0 is a unit sphere at the
origin, body B's vertex 0 is a unit sphere at `(1.5, 0, 0)`, margin
multipliers and shape margins all 1. -/
def scenarioV0 : ℕ → VertexPos := fun _ => ⟨((0 : ℚ), 0, 0), 1⟩

/-- Vertex buffer of body B in the concrete scenario. -/
def scenarioV1 : ℕ → VertexPos := fun _ => ⟨((3 : ℚ) / 2, 0, 0), 1⟩

/-- Point collider over vertex 0. -/
def collider0 : Collider := ⟨0, (0, 0, 0), 1⟩

/-! ## Bounded result sink (`CollisionCheckBase2::addResult`) -/

/-- The state of the bounded result sink: the atomic position counter
(`numResults`) and the prefix of the result array written so far.  A slot is
written only when its reserved index is below capacity, so the written slots
form the list `stored`. -/
structure SinkState where
  numResults : ℕ
  stored : List CollisionResult
deriving DecidableEq, Inhabited

/-- The sink at the start of a collision check (`numResults = 0`). -/
def freshSink : SinkState := ⟨0, []⟩

/-- Embeds `CollisionCheckBase2<T, false>::addResult` (lines 70-79): reserve index
`p` by incrementing the counter; if `p` is below capacity store the contact
and return `true`, otherwise drop it and return `false`. -/
def addResult (maxN : ℕ) (st : SinkState) (res : CollisionResult) :
    SinkState × Bool :=
  let p := st.numResults
  if p < maxN then
    (⟨p + 1, st.stored ++ [res]⟩, true)
  else
    (⟨p + 1, st.stored⟩, false)

/-- Embeds `CollisionCheckBase2<T, true>::addResult` (lines 90-104): same bounded
write, but the stored contact has `posA`/`posB` exchanged,
`colliderA`/`colliderB` exchanged, the normal negated and the depth kept. -/
def addResultSwap (maxN : ℕ) (st : SinkState) (res : CollisionResult) :
    SinkState × Bool :=
  let p := st.numResults
  if p < maxN then
    (⟨p + 1, st.stored ++
      [{ posA := res.posB
         posB := res.posA
         colliderA := res.colliderB
         colliderB := res.colliderA
         normOnB := vneg res.normOnB
         depth := res.depth }]⟩, true)
  else
    (⟨p + 1, st.stored⟩, false)

/-- Running the sink over a whole list of submissions. -/
def runSink (maxN : ℕ) (rs : List CollisionResult) : SinkState :=
  rs.foldl (fun st r => (addResult maxN st r).1) freshSink

/-- The collision-check loop body of `CollisionCheckAlgorithm::operator()`
(lines 235-301), sequential execution: for each coarse pair, skip it when the
counter already reached capacity, otherwise compute the pair's best contact
(the refiner and geometry checks, abstracted as `bestOf`) and submit it to
the sink when one exists.  The return value of `operator()` is the final
counter `numResults`. -/
def runPairs {α : Type} (maxN : ℕ) (bestOf : α → Option CollisionResult)
    (pairs : List α) : SinkState :=
  pairs.foldl (fun st p =>
    if maxN ≤ st.numResults then st
    else match bestOf p with
      | none => st
      | some r => (addResult maxN st r).1) freshSink

/-! ## Merge buffer (`SkinnedMeshAlgorithm::MergeBuffer::doMerge`) -/

/-- A skinned bone entry: weight threshold, kinematic flag, and a non-owning
reference to a rigid body (`SkinnedMeshBone*`, modelled as an identifier). -/
structure SkinnedBone where
  weightThreshold : ℚ
  isKinematic : Bool
  ptr : ℕ
deriving DecidableEq, Inhabited

/-- The bone-related interface of `SkinnedMeshShape` as `doMerge` consumes
it: `getBonePerCollider`, `getColliderBoneWeight`, `getColliderBoneIndex`
(abstract accessors declared in the shape headers) and the owner's
`m_skinnedBones` list. -/
structure SkinnedMeshShape where
  bonePerCollider : ℕ
  boneWeight : Collider → ℕ → ℚ
  boneIndex : Collider → ℕ → ℕ
  skinnedBones : List SkinnedBone

/-- Reads `m_skinnedBones[i]`. -/
def boneAt (s : SkinnedMeshShape) (i : ℕ) : SkinnedBone :=
  s.skinnedBones.getD i default

/-- One accumulation cell of the merge buffer, keyed by a bone pair. -/
structure MergeCell where
  weight : ℚ
  normal : Vec3
  posA : Vec3
  posB : Vec3
deriving DecidableEq, Inhabited

/-- A zeroed cell (the state of every cell after `alloc`). -/
def emptyCell : MergeCell := ⟨0, ((0 : ℚ), 0, 0), ((0 : ℚ), 0, 0), ((0 : ℚ), 0, 0)⟩

/-- The merge buffer as a total map from bone pairs to cells (`get(i, j)`). -/
abbrev MergeBuffer := ℕ × ℕ → MergeCell

/-- The cell update of `doMerge` lines 457-460:
`weight += w2`, `normal += normalOnB * w * w2`, `pos[0] += posA * w2`,
`pos[1] += posB * w2`. -/
def cellUpdate (res : CollisionResult) (w w2 : ℚ) (c : MergeCell) : MergeCell :=
  { weight := c.weight + w2
    normal := vadd c.normal (vscale w2 (vscale w res.normOnB))
    posA := vadd c.posA (vscale w2 res.posA)
    posB := vadd c.posB (vscale w2 res.posB) }

/-- The bone-pair double loop of `doMerge` (lines 438-462) for one contact:
for every bone slot of `colliderA` above its threshold and every bone slot of
`colliderB` above its threshold, excluding pairs of two kinematic bones,
update the cell keyed by the two bone indices. -/
def mergeContact (a b : SkinnedMeshShape) (flexible : ℚ) (res : CollisionResult)
    (buf : MergeBuffer) : MergeBuffer :=
  (List.range a.bonePerCollider).foldl (fun buf1 ib =>
    let w0 := a.boneWeight res.colliderA ib
    let bi0 := a.boneIndex res.colliderA ib
    if w0 ≤ (boneAt a bi0).weightThreshold then buf1
    else
      (List.range b.bonePerCollider).foldl (fun buf2 jb =>
        let w1 := b.boneWeight res.colliderB jb
        let bi1 := b.boneIndex res.colliderB jb
        if w1 ≤ (boneAt b bi1).weightThreshold then buf2
        else if (boneAt a bi0).isKinematic && (boneAt b bi1).isKinematic then
          buf2
        else
          let w := flexible * res.depth
          let w2 := w * w
          fun p => if p = (bi0, bi1) then cellUpdate res w w2 (buf2 p)
                   else buf2 p) buf1) buf

/-- The contact loop of `doMerge` (lines 430-463) over the contact list:
stop at the first contact with `depth >= -FLT_EPSILON`; for each remaining
contact compute `flexible = max(colliderA->flexible, colliderB->flexible)`
and return immediately when it is below `FLT_EPSILON`, otherwise accumulate
the contact and continue. -/
def doMergeList (a b : SkinnedMeshShape) :
    List CollisionResult → MergeBuffer → MergeBuffer
  | [], buf => buf
  | res :: rest, buf =>
    if -eps ≤ res.depth then buf
    else
      let flexible := max res.colliderA.flexible res.colliderB.flexible
      if flexible < eps then buf
      else doMergeList a b rest (mergeContact a b flexible res buf)

/-- Embeds `MergeBuffer::doMerge(a, b, collision, count)`: the contact loop
over `collision[0..count)`. -/
def doMerge (a b : SkinnedMeshShape) (collision : ℕ → CollisionResult)
    (count : ℕ) (buf : MergeBuffer) : MergeBuffer :=
  doMergeList a b ((List.range count).map collision) buf

/-- The per-contact flexibility, `max(colliderA->flexible,
colliderB->flexible)`. -/
def flexOf (res : CollisionResult) : ℚ :=
  max res.colliderA.flexible res.colliderB.flexible

/-- A contact is processed by `doMerge` iff it penetrates
(`depth < -FLT_EPSILON`) and its flexibility reaches `FLT_EPSILON`; the loop
stops at the first contact failing either test. -/
def processedP (res : CollisionResult) : Bool :=
  decide (res.depth < -eps) && decide (eps ≤ flexOf res)

/-- Whether bone slots `ib` of `colliderA` and `jb` of `colliderB` qualify
for accumulation: both weights strictly above their bones' thresholds and
not both bones kinematic. -/
def qualifies (a b : SkinnedMeshShape) (res : CollisionResult)
    (ib jb : ℕ) : Bool :=
  decide ((boneAt a (a.boneIndex res.colliderA ib)).weightThreshold <
    a.boneWeight res.colliderA ib) &&
  decide ((boneAt b (b.boneIndex res.colliderB jb)).weightThreshold <
    b.boneWeight res.colliderB jb) &&
  !((boneAt a (a.boneIndex res.colliderA ib)).isKinematic &&
    (boneAt b (b.boneIndex res.colliderB jb)).isKinematic)

/-- All bone slot pairs of a contact. -/
def slotPairs (a b : SkinnedMeshShape) : List (ℕ × ℕ) :=
  (List.range a.bonePerCollider).flatMap
    (fun ib => (List.range b.bonePerCollider).map (fun jb => (ib, jb)))

/-- Number of qualifying bone slot pairs of a contact that target the merge
cell `p`. -/
def contribCount (a b : SkinnedMeshShape) (res : CollisionResult)
    (p : ℕ × ℕ) : ℕ :=
  ((slotPairs a b).filter (fun q =>
    qualifies a b res q.1 q.2 &&
    decide (p = (a.boneIndex res.colliderA q.1, b.boneIndex res.colliderB q.2)))).length

/-- One step of the bone-pair accumulation, over a slot pair: update the
targeted cell when the pair qualifies, else leave the buffer unchanged. -/
def flatStep (a b : SkinnedMeshShape) (res : CollisionResult) (flexible : ℚ)
    (bf : MergeBuffer) (q : ℕ × ℕ) : MergeBuffer :=
  if qualifies a b res q.1 q.2 then
    fun p =>
      if p = (a.boneIndex res.colliderA q.1, b.boneIndex res.colliderB q.2)
      then cellUpdate res (flexible * res.depth)
        ((flexible * res.depth) * (flexible * res.depth)) (bf p)
      else bf p
  else bf

/-! ## Local broad-phase refiner: e_CPU versus e_CPURefactored -/

/-- Componentwise minimum. -/
def vmin (a b : Vec3) : Vec3 := (min a.1 b.1, min a.2.1 b.2.1, min a.2.2 b.2.2)

/-- Componentwise maximum. -/
def vmax (a b : Vec3) : Vec3 := (max a.1 b.1, max a.2.1 b.2.1, max a.2.2 b.2.2)

/-- Componentwise comparison. -/
def vle (a b : Vec3) : Bool :=
  decide (a.1 ≤ b.1) && decide (a.2.1 ≤ b.2.1) && decide (a.2.2 ≤ b.2.2)

/-- Modelled from the spec: the axis-aligned bounding box of the spatial
hierarchy (`hdt::Aabb`, declared outside the provided sources), with the
standard interval-overlap test, componentwise merge, and an invalidated
state represented by `Option` (`none` = freshly `invalidate()`d, collides
with nothing, merging starts from the first box). -/
structure Aabb where
  lo : Vec3
  hi : Vec3
deriving DecidableEq, Inhabited

/-- AABB overlap test (`Aabb::collideWith`). -/
def aabbCollide (x y : Aabb) : Bool := vle x.lo y.hi && vle y.lo x.hi

/-- AABB union (`Aabb::merge`). -/
def mergeAabb (x y : Aabb) : Aabb := ⟨vmin x.lo y.lo, vmax x.hi y.hi⟩

/-- Containment of box `x` inside box `z`. -/
def containsB (z x : Aabb) : Bool := vle z.lo x.lo && vle x.hi z.hi

/-- Merge of a list of boxes starting from an invalidated box. -/
def mergeBoxes (l : List Aabb) : Option Aabb :=
  l.foldl (fun acc x =>
    some (match acc with
          | none => x
          | some y => mergeAabb y x)) none

/-- Overlap against a possibly-invalidated box. -/
def aabbCollideO (x : Aabb) (y : Option Aabb) : Bool :=
  match y with
  | none => false
  | some z => aabbCollide x z

/-- The narrow-phase test of one collider pair as both variants run it:
skip the pair unless the two boxes overlap, then run the geometry checker
(`checkCollide`, a parameter so the equivalence holds for any fixed
candidate universe). -/
def pairChk (boxA boxB : ℕ → Aabb) (chk : ℕ → ℕ → Option CollisionResult)
    (i j : ℕ) : Option CollisionResult :=
  if aabbCollide (boxA i) (boxB j) then chk i j else none

/-- One step of the best-of-pair fold: keep the incoming contact when there
is none yet or it is strictly deeper (`result.depth > temp.depth`). -/
def bestStep (acc : Option CollisionResult) (c : CollisionResult) :
    Option CollisionResult :=
  match acc with
  | none => some c
  | some r => if r.depth > c.depth then some c else acc

/-- Best-of-pair reduction over the tested contacts, in test order. -/
def foldBest (cs : List CollisionResult) : Option CollisionResult :=
  cs.foldl bestStep none

/-- Step 1 of e_CPURefactored (lines 261-268): colliders of A intersecting
B's full bounding box. -/
def listARef (asize : ℕ) (boxA : ℕ → Aabb) (aabbMeB : Aabb) : List ℕ :=
  (List.range asize).filter (fun i => aabbCollide (boxA i) aabbMeB)

/-- The tightened box for A, merged over `listARef`. -/
def aabbARef (asize : ℕ) (boxA : ℕ → Aabb) (aabbMeB : Aabb) : Option Aabb :=
  mergeBoxes ((listARef asize boxA aabbMeB).map boxA)

/-- Step 2 of e_CPURefactored (lines 271-282): colliders of B intersecting
the tightened A box, computed only when step 1 found anything. -/
def listBRef (asize bsize : ℕ) (boxA boxB : ℕ → Aabb) (aabbMeB : Aabb) :
    List ℕ :=
  if (listARef asize boxA aabbMeB).isEmpty then []
  else (List.range bsize).filter
    (fun j => aabbCollideO (boxB j) (aabbARef asize boxA aabbMeB))

/-- The tightened box for B, merged over `listBRef`. -/
def aabbBRef (asize bsize : ℕ) (boxA boxB : ℕ → Aabb) (aabbMeB : Aabb) :
    Option Aabb :=
  mergeBoxes ((listBRef asize bsize boxA boxB aabbMeB).map boxB)

/-- Step 3 of e_CPURefactored (lines 285-288): re-filter the A candidates
against the tightened B box (only when step 2 found anything). -/
def listA2Ref (asize bsize : ℕ) (boxA boxB : ℕ → Aabb) (aabbMeB : Aabb) :
    List ℕ :=
  if (listBRef asize bsize boxA boxB aabbMeB).isEmpty then
    listARef asize boxA aabbMeB
  else (listARef asize boxA aabbMeB).filter
    (fun i => aabbCollideO (boxA i) (aabbBRef asize bsize boxA boxB aabbMeB))

/-- The contacts tested by the e_CPURefactored `dispatch` (lines 181-199),
in loop order. -/
def succRef (asize bsize : ℕ) (boxA boxB : ℕ → Aabb) (aabbMeB : Aabb)
    (chk : ℕ → ℕ → Option CollisionResult) : List CollisionResult :=
  (listA2Ref asize bsize boxA boxB aabbMeB).flatMap
    (fun i => (listBRef asize bsize boxA boxB aabbMeB).filterMap
      (fun j => pairChk boxA boxB chk i j))

/-- The best-of-pair contact the e_CPURefactored variant submits to the
sink for one coarse pair. -/
def refactoredBest (asize bsize : ℕ) (boxA boxB : ℕ → Aabb) (aabbMeB : Aabb)
    (chk : ℕ → ℕ → Option CollisionResult) : Option CollisionResult :=
  foldBest (succRef asize bsize boxA boxB aabbMeB chk)

/-- The contacts tested by the e_CPU variant (lines 341-399), in loop
order: the smaller side is pre-filtered into a candidate list against the
other body's full box, the larger side is scanned with its own full-box
filter, and each surviving pair is tested. -/
def succCPU (asize bsize : ℕ) (boxA boxB : ℕ → Aabb) (aabbMeA aabbMeB : Aabb)
    (chk : ℕ → ℕ → Option CollisionResult) : List CollisionResult :=
  if bsize < asize then
    ((List.range asize).filter (fun i => aabbCollide (boxA i) aabbMeB)).flatMap
      (fun i => ((List.range bsize).filter
          (fun j => aabbCollide (boxB j) aabbMeA)).filterMap
        (fun j => pairChk boxA boxB chk i j))
  else
    ((List.range bsize).filter (fun j => aabbCollide (boxB j) aabbMeA)).flatMap
      (fun j => ((List.range asize).filter
          (fun i => aabbCollide (boxA i) aabbMeB)).filterMap
        (fun i => pairChk boxA boxB chk i j))

/-- The best-of-pair contact the e_CPU variant submits to the sink for one
coarse pair. -/
def cpuBest (asize bsize : ℕ) (boxA boxB : ℕ → Aabb) (aabbMeA aabbMeB : Aabb)
    (chk : ℕ → ℕ → Option CollisionResult) : Option CollisionResult :=
  foldBest (succCPU asize bsize boxA boxB aabbMeA aabbMeB chk)

/-- The full candidate universe of one coarse pair: every collider pair
whose boxes overlap, tested by the geometry checker. -/
def succAll (asize bsize : ℕ) (boxA boxB : ℕ → Aabb)
    (chk : ℕ → ℕ → Option CollisionResult) : List CollisionResult :=
  (List.range asize).flatMap
    (fun i => (List.range bsize).filterMap (fun j => pairChk boxA boxB chk i j))

/-- A unit box at the origin, for concrete instances. -/
def boxW : Aabb := ⟨((0 : ℚ), 0, 0), ((1 : ℚ), 1, 1)⟩

/-! ## Sphere-triangle checker entry (`CollisionChecker<PerTriangleShape>`) -/

/-- The dilated triangle handed to `checkSphereTriangle`. -/
structure CheckTriangle where
  p0 : Vec3
  p1 : Vec3
  p2 : Vec3
  margin : ℚ
  penetration : ℚ
  valid : Bool
deriving DecidableEq, Inhabited

/-- Modelled from the spec: the `CheckTriangle` constructor (declared
outside the provided sources) validates the triangle; a degenerate/zero-area
triangle — zero cross product of its edge vectors — is rejected as
invalid. -/
def mkCheckTriangle (p0 p1 p2 : Vec3) (margin penetration : ℚ) :
    CheckTriangle :=
  let n := vcross (vsub p1 p0) (vsub p2 p0)
  ⟨p0, p1, p2, margin, penetration, decide (vdot n n ≠ 0)⟩

/-- Embeds `CollisionChecker<PerTriangleShape, SwapResults>::checkCollide`
(lines 142-159): resolve the sphere and the triangle's three vertices,
average the vertex margin multipliers into the triangle margin and
penetration, build the `CheckTriangle`, return no contact when it is
invalid, and otherwise run the sphere-triangle test (`checkSphereTriangle`
is declared outside the provided sources, so it is a parameter `cst`
here). -/
def checkCollidePT (cst : Vec3 → ℚ → CheckTriangle → Option CollisionResult)
    (v0 v1 : ℕ → VertexPos) (sp0 : ShapePropV) (sp1 : ShapePropT)
    (a b : Collider) : Option CollisionResult :=
  let s := v0 a.vertex
  let r := s.marginMultiplier * sp0.margin
  let p0 := v1 b.vertices.1
  let p1 := v1 b.vertices.2.1
  let p2 := v1 b.vertices.2.2
  let margin0 := (p0.marginMultiplier + p1.marginMultiplier +
    p2.marginMultiplier) / 3
  let penetration := sp1.penetration * margin0
  let margin1 := margin0 * sp1.margin
  let tri := mkCheckTriangle p0.pos p1.pos p2.pos margin1 penetration
  if !tri.valid then none
  else (cst s.pos r tri).map
    (fun res => { res with colliderA := a, colliderB := b })

/-- A vertex buffer whose vertices are all on one line (degenerate
triangles). -/
def degenV1 : ℕ → VertexPos := fun i => ⟨((i : ℚ), 0, 0), 1⟩

/-- A triangle collider over vertices 0, 1, 2. -/
def colliderT : Collider := ⟨0, (0, 1, 2), 1⟩

/-- A sphere-triangle routine that always reports a contact, to exhibit that
the validity guard alone suppresses the result. -/
def cstAlways : Vec3 → ℚ → CheckTriangle → Option CollisionResult :=
  fun _ _ _ => some default

/-! ## Manifold emitter (`SkinnedMeshAlgorithm::MergeBuffer::apply`) -/

/-- The per-body data `apply` consumes: the skinned bone list and the
`canCollideWith` predicate over rigid bodies. -/
structure SkinnedMeshBody where
  skinnedBones : List SkinnedBone
  canCollideWith : ℕ → Bool

/-- Reads `body->m_skinnedBones[i]`. -/
def bodyBone (body : SkinnedMeshBody) (i : ℕ) : SkinnedBone :=
  body.skinnedBones.getD i default

/-- A manifold point as emitted by `apply`: the bone pair, the two rigid
bodies, the weighted-average world positions and the averaged normal
`cell.normal * invWeight`.  The point's unit normal and depth are obtained
from the averaged normal by normalization (`depth = -|n|`,
`unit = -n/|n|`), which has no exact rational form; the guards on them are
expressed on the squared length below. -/
structure EmitPoint where
  boneA : ℕ
  boneB : ℕ
  rb0 : ℕ
  rb1 : ℕ
  worldA : Vec3
  worldB : Vec3
  normalScaled : Vec3
deriving DecidableEq, Inhabited

/-- Embeds `MergeBuffer::apply` (lines 466-507), collecting the emitted
manifold points in loop order.  The guards mirror the source exactly:
`canCollideWith` both ways, `weight < FLT_EPSILON`, both bones kinematic,
same rigid body on both sides, `fuzzyZero` of the averaged normal
(`|n|² < FLT_EPSILON²`) and `depth >= -FLT_EPSILON` (`|n|² <= FLT_EPSILON²`,
since `depth = -|n|`). -/
def applyEmits (body0 body1 : SkinnedMeshBody) (buf : MergeBuffer) :
    List EmitPoint :=
  (List.range body0.skinnedBones.length).foldl (fun acc i =>
    if !(body1.canCollideWith (bodyBone body0 i).ptr) then acc
    else (List.range body1.skinnedBones.length).foldl (fun acc2 j =>
      if !(body0.canCollideWith (bodyBone body1 j).ptr) then acc2
      else if (buf (i, j)).weight < eps then acc2
      else if (bodyBone body0 i).isKinematic &&
          (bodyBone body1 j).isKinematic then acc2
      else if (bodyBone body0 i).ptr = (bodyBone body1 j).ptr then acc2
      else
        let c := buf (i, j)
        let invW := 1 / c.weight
        let worldA := vscale invW c.posA
        let worldB := vscale invW c.posB
        let normal := vscale invW c.normal
        if vdot normal normal < eps * eps then acc2
        else if vdot normal normal ≤ eps * eps then acc2
        else acc2 ++ [{ boneA := i
                        boneB := j
                        rb0 := (bodyBone body0 i).ptr
                        rb1 := (bodyBone body1 j).ptr
                        worldA := worldA
                        worldB := worldB
                        normalScaled := normal }]) acc) []

/-- A body with one non-kinematic bone over rigid body 1, colliding with
everything. -/
def bodyW0 : SkinnedMeshBody := ⟨[⟨0, false, 1⟩], fun _ => true⟩

/-- A body with one non-kinematic bone over rigid body 2, colliding with
everything. -/
def bodyW1 : SkinnedMeshBody := ⟨[⟨0, false, 2⟩], fun _ => true⟩

/-- A merge buffer whose every cell has weight 1 and unit normal. -/
def bufW1 : MergeBuffer := fun _ => ⟨1, ((1 : ℚ), 0, 0), ((0 : ℚ), 0, 0), ((0 : ℚ), 0, 0)⟩

/-- The manifold point emitted by `apply` on the one-bone bodies above. -/
def ptW : EmitPoint :=
  ⟨0, 0, 1, 2, ((0 : ℚ), 0, 0), ((0 : ℚ), 0, 0), ((1 : ℚ), 0, 0)⟩

/-- Invariant of every point emitted by `apply`: the rigid bodies are the
ones of its bone pair, both `canCollideWith` guards passed, the bones are
not both kinematic, and the rigid bodies differ. -/
def emitInv (body0 body1 : SkinnedMeshBody) (pt : EmitPoint) : Prop :=
  body1.canCollideWith (bodyBone body0 pt.boneA).ptr = true ∧
  body0.canCollideWith (bodyBone body1 pt.boneB).ptr = true ∧
  ¬((bodyBone body0 pt.boneA).isKinematic = true ∧
    (bodyBone body1 pt.boneB).isKinematic = true) ∧
  pt.rb0 = (bodyBone body0 pt.boneA).ptr ∧
  pt.rb1 = (bodyBone body1 pt.boneB).ptr ∧
  pt.rb0 ≠ pt.rb1

/-! ## Entry-point clamping (`SkinnedMeshAlgorithm::processCollision`) -/

/-- Embeds the templated `SkinnedMeshAlgorithm::processCollision` (lines
509-515): the checker's return value is clamped to `MaxCollisionCount` and
`doMerge` runs only when the clamped count is positive. -/
def processCollisionT (maxN : ℕ) (a b : SkinnedMeshShape) (checkRet : ℕ)
    (collision : ℕ → CollisionResult) (buf : MergeBuffer) : MergeBuffer :=
  let count := min checkRet maxN
  if 0 < count then doMerge a b collision count buf else buf

/-- A one-bone shape used in concrete instances. -/
def shapeW : SkinnedMeshShape := ⟨1, fun _ _ => 1, fun _ _ => 0, [⟨0, false, 0⟩]⟩

/-- An all-zero merge buffer (state after `alloc`). -/
def bufW : MergeBuffer := fun _ => emptyCell

/-- A contact buffer used in concrete instances. -/
def colW : ℕ → CollisionResult := fun _ => default

/-- A contact buffer agreeing with `colW` on index 0 only. -/
def colW2 : ℕ → CollisionResult :=
  fun i => if i = 0 then default
           else { (default : CollisionResult) with depth := -1 }

/-! ## Proofs -/

lemma runSink_foldl_length (maxN : ℕ) (rs : List CollisionResult) :
    ∀ st : SinkState, st.stored.length = min st.numResults maxN →
      (rs.foldl (fun st r => (addResult maxN st r).1) st).stored.length =
        min (st.numResults + rs.length) maxN := by
  induction rs with
  | nil => intro st h; simpa using h
  | cons r rs ih =>
    intro st h
    simp only [List.foldl_cons, List.length_cons]
    by_cases hc : st.numResults < maxN
    · have h2 : ((addResult maxN st r).1).stored.length =
          min ((addResult maxN st r).1).numResults maxN := by
        simp only [addResult, if_pos hc, List.length_append,
          List.length_singleton, h]
        omega
      have h3 : ((addResult maxN st r).1).numResults = st.numResults + 1 := by
        simp [addResult, if_pos hc]
      rw [ih _ h2, h3]
      omega
    · have h2 : ((addResult maxN st r).1).stored.length =
          min ((addResult maxN st r).1).numResults maxN := by
        simp only [addResult, if_neg hc, h]
        omega
      have h3 : ((addResult maxN st r).1).numResults = st.numResults + 1 := by
        simp [addResult, if_neg hc]
      rw [ih _ h2, h3]
      omega

lemma runPairs_foldl_inv {α : Type} (maxN : ℕ)
    (bestOf : α → Option CollisionResult) (pairs : List α) :
    ∀ st : SinkState,
      st.numResults = st.stored.length → st.numResults ≤ maxN →
      (pairs.foldl (fun st p =>
        if maxN ≤ st.numResults then st
        else match bestOf p with
          | none => st
          | some r => (addResult maxN st r).1) st).numResults =
        (pairs.foldl (fun st p =>
          if maxN ≤ st.numResults then st
          else match bestOf p with
            | none => st
            | some r => (addResult maxN st r).1) st).stored.length ∧
      (pairs.foldl (fun st p =>
        if maxN ≤ st.numResults then st
        else match bestOf p with
          | none => st
          | some r => (addResult maxN st r).1) st).numResults ≤ maxN := by
  induction pairs with
  | nil => intro st h1 h2; exact ⟨h1, h2⟩
  | cons p ps ih =>
    intro st h1 h2
    simp only [List.foldl_cons]
    by_cases hc : maxN ≤ st.numResults
    · rw [if_pos hc]; exact ih st h1 h2
    · rw [if_neg hc]
      cases hb : bestOf p with
      | none => exact ih st h1 h2
      | some r =>
        have hlt : st.numResults < maxN := Nat.lt_of_not_le hc
        have h3 : ((addResult maxN st r).1).numResults =
            ((addResult maxN st r).1).stored.length := by
          simp only [addResult]
          rw [if_pos hlt]
          show st.numResults + 1 = (st.stored ++ [r]).length
          simp [h1]
        have h4 : ((addResult maxN st r).1).numResults ≤ maxN := by
          simp only [addResult]
          rw [if_pos hlt]
          show st.numResults + 1 ≤ maxN
          omega
        exact ih _ h3 h4

/-- C1: the claim states that in the sphere-sphere checker the two sphere
centers are the positions of a's vertex and b's vertex with each radius from
its own shape's margin, and that the spec's concrete scenario (unit spheres
at the origin and at `(1.5,0,0)`, margin multiplier 1) yields depth `-0.5`
and normal `(1,0,0)`.  The source instead reads `v0[a->vertex]` and
`sp0->margin` for BOTH spheres (lines 124-125), so on that scenario the two
centers coincide and the checker reports no contact, while the intended
reading (`v1[b->vertex]`, `sp1->margin`) produces exactly the claimed
result. -/
theorem c1_sphere_sphere_reads_first_vertex_twice :
    checkCollidePV scenarioV0 scenarioV1 ⟨1⟩ ⟨1⟩ collider0 collider0 = none ∧
    checkCollidePVIntended scenarioV0 scenarioV1 ⟨1⟩ ⟨1⟩ collider0 collider0 =
      some { posA := ((1 : ℚ), 0, 0)
             posB := ((1 : ℚ) / 2, 0, 0)
             normOnB := ((1 : ℚ), 0, 0)
             depth := -(1 / 2)
             colliderA := collider0
             colliderB := collider0 } :=
  ⟨by decide, by decide⟩

/-- C3: a contact submitted to the bounded result sink is stored with `true`
returned iff the index reserved by the counter increment is below
`MaxCollisionCount`; otherwise the write is dropped and `false` returned; and
over any sequence of submissions at most `MaxCollisionCount` contacts are
ever stored. -/
theorem c3_bounded_sink_caps_stored (maxN : ℕ) :
    (∀ st res, ((addResult maxN st res).2 = true ↔ st.numResults < maxN)) ∧
    (∀ st res, st.numResults < maxN →
      (addResult maxN st res).1.stored = st.stored ++ [res]) ∧
    (∀ st res, maxN ≤ st.numResults →
      (addResult maxN st res).1.stored = st.stored) ∧
    (∀ rs : List CollisionResult,
      (runSink maxN rs).stored.length = min rs.length maxN) ∧
    (∀ rs : List CollisionResult,
      (runSink maxN rs).stored.length ≤ maxN) := by
  have hlen : ∀ rs : List CollisionResult,
      (runSink maxN rs).stored.length = min rs.length maxN := by
    intro rs
    have h := runSink_foldl_length maxN rs freshSink (by simp [freshSink])
    simpa [runSink, freshSink] using h
  refine ⟨?_, ?_, ?_, hlen, ?_⟩
  · intro st res
    by_cases hc : st.numResults < maxN
    · simp [addResult, if_pos hc, hc]
    · simp [addResult, if_neg hc, hc]
  · intro st res h
    simp [addResult, if_pos h]
  · intro st res h
    simp [addResult, if_neg (Nat.not_lt.mpr h)]
  · intro rs
    rw [hlen rs]
    omega

/-- Closed instance of C3: capacity 2, three submissions, two stored and the
first accepted. -/
theorem c3_bounded_sink_caps_stored_witness :
    (addResult 2 freshSink default).2 = true ∧
    (runSink 2 [default, default, default]).stored.length = min 3 2 :=
  ⟨((c3_bounded_sink_caps_stored 2).1 freshSink default).mpr (by decide),
   (c3_bounded_sink_caps_stored 2).2.2.2.1 [default, default, default]⟩

/-- C4: the sequential collision-check loop of
`CollisionCheckAlgorithm::operator()` returns its final counter, which
equals the number of contacts actually stored by the bounded sink and never
exceeds `MaxCollisionCount`. -/
theorem c4_dispatcher_count_equals_stored {α : Type} (maxN : ℕ)
    (bestOf : α → Option CollisionResult) (pairs : List α) :
    (runPairs maxN bestOf pairs).numResults =
      (runPairs maxN bestOf pairs).stored.length ∧
    (runPairs maxN bestOf pairs).numResults ≤ maxN := by
  have h := runPairs_foldl_inv maxN bestOf pairs freshSink
    (by simp [freshSink]) (by simp [freshSink])
  simpa [runPairs] using h

/-- C5: when the reserved index is within capacity, the swapped adapter
stores exactly the contact the non-swapped adapter stores with `posA`/`posB`
exchanged, `colliderA`/`colliderB` exchanged, the normal negated and the
depth unchanged, and both return the same acceptance flag. -/
theorem c5_swap_adapter_mirrors_result (maxN : ℕ) (st : SinkState)
    (res : CollisionResult) (h : st.numResults < maxN) :
    (addResult maxN st res).1.stored = st.stored ++ [res] ∧
    (addResultSwap maxN st res).1.stored = st.stored ++
      [{ posA := res.posB
         posB := res.posA
         normOnB := vneg res.normOnB
         depth := res.depth
         colliderA := res.colliderB
         colliderB := res.colliderA }] ∧
    (addResultSwap maxN st res).2 = (addResult maxN st res).2 := by
  refine ⟨?_, ?_, ?_⟩ <;> simp [addResult, addResultSwap, if_pos h]

lemma foldl_skip {γ : Type} (f : MergeBuffer → γ → MergeBuffer) :
    ∀ (l : List γ) (buf : MergeBuffer),
      (∀ bf x, x ∈ l → f bf x = bf) → l.foldl f buf = buf := by
  intro l
  induction l with
  | nil => intro buf _; rfl
  | cons x l ih =>
    intro buf h
    rw [List.foldl_cons, h buf x (by simp)]
    exact ih buf (fun bf y hy => h bf y (by simp [hy]))

lemma flatStep_skip (a b : SkinnedMeshShape) (res : CollisionResult)
    (flexible : ℚ) (bf : MergeBuffer) (q : ℕ × ℕ)
    (h : qualifies a b res q.1 q.2 = false) :
    flatStep a b res flexible bf q = bf := by
  simp [flatStep, h]

lemma mergeContact_eq_flat (a b : SkinnedMeshShape) (res : CollisionResult)
    (flexible : ℚ) :
    ∀ (l1 l2 : List ℕ) (buf : MergeBuffer),
      l1.foldl (fun buf1 ib =>
        let w0 := a.boneWeight res.colliderA ib
        let bi0 := a.boneIndex res.colliderA ib
        if w0 ≤ (boneAt a bi0).weightThreshold then buf1
        else
          l2.foldl (fun buf2 jb =>
            let w1 := b.boneWeight res.colliderB jb
            let bi1 := b.boneIndex res.colliderB jb
            if w1 ≤ (boneAt b bi1).weightThreshold then buf2
            else if (boneAt a bi0).isKinematic &&
                (boneAt b bi1).isKinematic then buf2
            else
              let w := flexible * res.depth
              let w2 := w * w
              fun p => if p = (bi0, bi1) then cellUpdate res w w2 (buf2 p)
                       else buf2 p) buf1) buf =
      (l1.flatMap (fun ib => l2.map (fun jb => (ib, jb)))).foldl
        (flatStep a b res flexible) buf := by
  intro l1
  induction l1 with
  | nil => intro l2 buf; rfl
  | cons ib l1 ih =>
    intro l2 buf
    rw [List.foldl_cons, List.flatMap_cons, List.foldl_append]
    have hstep :
        (let w0 := a.boneWeight res.colliderA ib
         let bi0 := a.boneIndex res.colliderA ib
         if w0 ≤ (boneAt a bi0).weightThreshold then buf
         else
           l2.foldl (fun buf2 jb =>
             let w1 := b.boneWeight res.colliderB jb
             let bi1 := b.boneIndex res.colliderB jb
             if w1 ≤ (boneAt b bi1).weightThreshold then buf2
             else if (boneAt a bi0).isKinematic &&
                 (boneAt b bi1).isKinematic then buf2
             else
               let w := flexible * res.depth
               let w2 := w * w
               fun p => if p = (bi0, bi1) then cellUpdate res w w2 (buf2 p)
                        else buf2 p) buf) =
        (l2.map (fun jb => (ib, jb))).foldl (flatStep a b res flexible) buf := by
      simp only []
      by_cases hA : a.boneWeight res.colliderA ib ≤
          (boneAt a (a.boneIndex res.colliderA ib)).weightThreshold
      · rw [if_pos hA]
        refine (foldl_skip _ _ _ ?_).symm
        intro bf q hq
        rcases List.mem_map.mp hq with ⟨jb, _, rfl⟩
        refine flatStep_skip a b res flexible bf (ib, jb) ?_
        simp only [qualifies]
        have : decide ((boneAt a (a.boneIndex res.colliderA ib)).weightThreshold <
            a.boneWeight res.colliderA ib) = false := by
          simp [not_lt.mpr hA]
        simp [this]
      · rw [if_neg hA]
        rw [List.foldl_map]
        refine List.foldl_ext _ _ buf ?_
        intro bf jb _
        simp only [flatStep, qualifies]
        by_cases hB : b.boneWeight res.colliderB jb ≤
            (boneAt b (b.boneIndex res.colliderB jb)).weightThreshold
        · rw [if_pos hB]
          have : decide ((boneAt b (b.boneIndex res.colliderB jb)).weightThreshold <
              b.boneWeight res.colliderB jb) = false := by
            simp [not_lt.mpr hB]
          simp [this]
        · rw [if_neg hB]
          have hBt : decide ((boneAt b (b.boneIndex res.colliderB jb)).weightThreshold <
              b.boneWeight res.colliderB jb) = true := by
            simp [lt_of_not_le hB]
          have hAt : decide ((boneAt a (a.boneIndex res.colliderA ib)).weightThreshold <
              a.boneWeight res.colliderA ib) = true := by
            simp [lt_of_not_le hA]
          by_cases hK : ((boneAt a (a.boneIndex res.colliderA ib)).isKinematic &&
              (boneAt b (b.boneIndex res.colliderB jb)).isKinematic) = true
          · rw [if_pos hK]
            simp [hAt, hBt, hK]
          · rw [if_neg hK]
            simp only [Bool.not_eq_true] at hK
            simp [hAt, hBt, hK]
    rw [hstep]
    exact ih l2 _

lemma foldl_flatStep_apply (a b : SkinnedMeshShape) (res : CollisionResult)
    (flexible : ℚ) :
    ∀ (L : List (ℕ × ℕ)) (buf : MergeBuffer) (p : ℕ × ℕ),
      (L.foldl (flatStep a b res flexible) buf) p =
        (cellUpdate res (flexible * res.depth)
          ((flexible * res.depth) * (flexible * res.depth)))^[
            (L.filter (fun q =>
              qualifies a b res q.1 q.2 &&
              decide (p = (a.boneIndex res.colliderA q.1,
                b.boneIndex res.colliderB q.2)))).length] (buf p) := by
  intro L
  induction L with
  | nil => intro buf p; rfl
  | cons q L ih =>
    intro buf p
    rw [List.foldl_cons]
    by_cases hq : qualifies a b res q.1 q.2 = true
    · by_cases hp : p = (a.boneIndex res.colliderA q.1,
          b.boneIndex res.colliderB q.2)
      · have hfil : (List.filter (fun q =>
            qualifies a b res q.1 q.2 &&
            decide (p = (a.boneIndex res.colliderA q.1,
              b.boneIndex res.colliderB q.2))) (q :: L)).length =
            (List.filter (fun q =>
              qualifies a b res q.1 q.2 &&
              decide (p = (a.boneIndex res.colliderA q.1,
                b.boneIndex res.colliderB q.2))) L).length + 1 := by
          rw [List.filter_cons]
          simp [hq, hp]
        rw [hfil, ih, Function.iterate_succ_apply]
        have hbf : (flatStep a b res flexible buf q) p =
            cellUpdate res (flexible * res.depth)
              ((flexible * res.depth) * (flexible * res.depth)) (buf p) := by
          simp [flatStep, hq, if_pos hp]
        rw [hbf]
      · have hfil : (List.filter (fun q =>
            qualifies a b res q.1 q.2 &&
            decide (p = (a.boneIndex res.colliderA q.1,
              b.boneIndex res.colliderB q.2))) (q :: L)).length =
            (List.filter (fun q =>
              qualifies a b res q.1 q.2 &&
              decide (p = (a.boneIndex res.colliderA q.1,
                b.boneIndex res.colliderB q.2))) L).length := by
          rw [List.filter_cons]
          simp [hp]
        rw [hfil, ih]
        have hbf : (flatStep a b res flexible buf q) p = buf p := by
          simp [flatStep, hq, if_neg hp]
        rw [hbf]
    · have hq0 : qualifies a b res q.1 q.2 = false := by
        simpa using hq
      have hfil : (List.filter (fun q =>
          qualifies a b res q.1 q.2 &&
          decide (p = (a.boneIndex res.colliderA q.1,
            b.boneIndex res.colliderB q.2))) (q :: L)).length =
          (List.filter (fun q =>
            qualifies a b res q.1 q.2 &&
            decide (p = (a.boneIndex res.colliderA q.1,
              b.boneIndex res.colliderB q.2))) L).length := by
        rw [List.filter_cons]
        simp [hq0]
      rw [hfil, flatStep_skip a b res flexible buf q hq0, ih]

/-- C2: the contact loop of `doMerge` processes contacts in index order and
stops at the first one with `depth >= -FLT_EPSILON` or with flexibility
below `FLT_EPSILON` (the latter returning immediately), i.e. it folds the
accumulation over exactly the `takeWhile` prefix of processed contacts; and
for one processed contact, every merge cell is updated once per qualifying
bone pair (both weights strictly above threshold, not both bones kinematic,
bone indices targeting that cell) by exactly `weight += w2`,
`normal += normalOnB*w*w2`, `posA += contactPosA*w2`, `posB += contactPosB*w2`
with `w = flexible*depth`, `w2 = w*w`. -/
theorem c2_doMerge_ordered_prefix_and_cell_update (a b : SkinnedMeshShape) :
    (∀ (contacts : List CollisionResult) (buf : MergeBuffer),
      doMergeList a b contacts buf =
        (contacts.takeWhile processedP).foldl
          (fun bf res => mergeContact a b (flexOf res) res bf) buf) ∧
    (∀ (flexible : ℚ) (res : CollisionResult) (buf : MergeBuffer) (p : ℕ × ℕ),
      mergeContact a b flexible res buf p =
        (cellUpdate res (flexible * res.depth)
          ((flexible * res.depth) * (flexible * res.depth)))^[
            contribCount a b res p] (buf p)) := by
  constructor
  · intro contacts
    induction contacts with
    | nil => intro buf; rfl
    | cons res rest ih =>
      intro buf
      rw [List.takeWhile_cons]
      simp only [doMergeList]
      by_cases hd : -eps ≤ res.depth
      · have hP : processedP res = false := by
          simp [processedP, not_lt.mpr hd]
        rw [if_pos hd, hP]
        simp
      · by_cases hf : max res.colliderA.flexible res.colliderB.flexible < eps
        · have hP : processedP res = false := by
            have h2 : ¬ eps ≤ flexOf res := not_le.mpr hf
            simp [processedP, h2]
          rw [if_neg hd, if_pos hf, hP]
          simp
        · have hP : processedP res = true := by
            have h1 : res.depth < -eps := not_le.mp hd
            have h2 : eps ≤ flexOf res := not_lt.mp hf
            simp [processedP, h1, h2]
          rw [if_neg hd, if_neg hf, hP]
          simp only [if_pos, List.foldl_cons]
          rw [ih]
          rfl
  · intro flexible res buf p
    have h1 := mergeContact_eq_flat a b res flexible
      (List.range a.bonePerCollider) (List.range b.bonePerCollider) buf
    have h2 := foldl_flatStep_apply a b res flexible
      ((List.range a.bonePerCollider).flatMap
        (fun ib => (List.range b.bonePerCollider).map (fun jb => (ib, jb))))
      buf p
    calc mergeContact a b flexible res buf p
        = ((List.range a.bonePerCollider).flatMap
            (fun ib => (List.range b.bonePerCollider).map
              (fun jb => (ib, jb)))).foldl
            (flatStep a b res flexible) buf p := by
          rw [show mergeContact a b flexible res buf =
            ((List.range a.bonePerCollider).flatMap
              (fun ib => (List.range b.bonePerCollider).map
                (fun jb => (ib, jb)))).foldl
              (flatStep a b res flexible) buf from h1]
      _ = _ := by rw [h2]; rfl

/-- C9: the contact count handed to `doMerge` by `processCollision` is the
checker's return value clamped to `MaxCollisionCount`, so the merge never
reads a contact-buffer slot at an index at or beyond `MaxCollisionCount`:
two contact buffers agreeing below `MaxCollisionCount` give identical
results. -/
theorem c9_clamped_count_never_reads_past_capacity (maxN : ℕ)
    (a b : SkinnedMeshShape) (checkRet : ℕ)
    (col col2 : ℕ → CollisionResult) (buf : MergeBuffer)
    (h : ∀ i < maxN, col i = col2 i) :
    min checkRet maxN ≤ maxN ∧
    processCollisionT maxN a b checkRet col buf =
      processCollisionT maxN a b checkRet col2 buf := by
  refine ⟨Nat.min_le_right _ _, ?_⟩
  have hmap : (List.range (min checkRet maxN)).map col =
      (List.range (min checkRet maxN)).map col2 := by
    refine List.map_congr_left ?_
    intro i hi
    exact h i (lt_of_lt_of_le (List.mem_range.mp hi) (Nat.min_le_right _ _))
  simp only [processCollisionT, doMerge, hmap]

/-- Closed instance of C9: capacity 1 and buffers differing only from
index 1 on. -/
theorem c9_clamped_count_never_reads_past_capacity_witness :
    (∀ i < 1, colW i = colW2 i) ∧
    (min 5 1 ≤ 1 ∧
      processCollisionT 1 shapeW shapeW 5 colW bufW =
        processCollisionT 1 shapeW shapeW 5 colW2 bufW) :=
  ⟨by decide,
   c9_clamped_count_never_reads_past_capacity 1 shapeW shapeW 5 colW colW2
     bufW (by decide)⟩

lemma foldl_mem_or {β γ : Type} (f : List γ → β → List γ) (P : γ → Prop)
    (hf : ∀ acc x pt, pt ∈ f acc x → pt ∈ acc ∨ P pt) :
    ∀ (l : List β) (acc : List γ) (pt : γ),
      pt ∈ l.foldl f acc → pt ∈ acc ∨ P pt := by
  intro l
  induction l with
  | nil => intro acc pt h; exact Or.inl h
  | cons x l ih =>
    intro acc pt h
    rw [List.foldl_cons] at h
    rcases ih (f acc x) pt h with h2 | h2
    · exact hf acc x pt h2
    · exact Or.inr h2

lemma mem_applyEmits (body0 body1 : SkinnedMeshBody) (buf : MergeBuffer)
    (pt : EmitPoint) (h : pt ∈ applyEmits body0 body1 buf) :
    emitInv body0 body1 pt := by
  have houter : ∀ (acc : List EmitPoint) (i : ℕ) (x : EmitPoint),
      x ∈ (fun acc i =>
        if !(body1.canCollideWith (bodyBone body0 i).ptr) then acc
        else (List.range body1.skinnedBones.length).foldl (fun acc2 j =>
          if !(body0.canCollideWith (bodyBone body1 j).ptr) then acc2
          else if (buf (i, j)).weight < eps then acc2
          else if (bodyBone body0 i).isKinematic &&
              (bodyBone body1 j).isKinematic then acc2
          else if (bodyBone body0 i).ptr = (bodyBone body1 j).ptr then acc2
          else
            let c := buf (i, j)
            let invW := 1 / c.weight
            let worldA := vscale invW c.posA
            let worldB := vscale invW c.posB
            let normal := vscale invW c.normal
            if vdot normal normal < eps * eps then acc2
            else if vdot normal normal ≤ eps * eps then acc2
            else acc2 ++ [{ boneA := i
                            boneB := j
                            rb0 := (bodyBone body0 i).ptr
                            rb1 := (bodyBone body1 j).ptr
                            worldA := worldA
                            worldB := worldB
                            normalScaled := normal }]) acc) acc i →
        x ∈ acc ∨ emitInv body0 body1 x := by
    intro acc i x hx
    by_cases hcanA : body1.canCollideWith (bodyBone body0 i).ptr = true
    · simp only [hcanA, Bool.not_true, Bool.false_eq_true, if_false] at hx
      refine foldl_mem_or _ (emitInv body0 body1) ?_
        (List.range body1.skinnedBones.length) acc x hx
      intro acc2 j y hy
      by_cases hcanB : body0.canCollideWith (bodyBone body1 j).ptr = true
      · simp only [hcanB, Bool.not_true, Bool.false_eq_true, if_false] at hy
        by_cases hw : (buf (i, j)).weight < eps
        · rw [if_pos hw] at hy; exact Or.inl hy
        · rw [if_neg hw] at hy
          by_cases hk : ((bodyBone body0 i).isKinematic &&
              (bodyBone body1 j).isKinematic) = true
          · rw [if_pos hk] at hy; exact Or.inl hy
          · rw [if_neg hk] at hy
            by_cases hr : (bodyBone body0 i).ptr = (bodyBone body1 j).ptr
            · rw [if_pos hr] at hy; exact Or.inl hy
            · rw [if_neg hr] at hy
              by_cases hz : vdot (vscale (1 / (buf (i, j)).weight)
                  (buf (i, j)).normal) (vscale (1 / (buf (i, j)).weight)
                  (buf (i, j)).normal) < eps * eps
              · rw [if_pos hz] at hy; exact Or.inl hy
              · rw [if_neg hz] at hy
                by_cases hz2 : vdot (vscale (1 / (buf (i, j)).weight)
                    (buf (i, j)).normal) (vscale (1 / (buf (i, j)).weight)
                    (buf (i, j)).normal) ≤ eps * eps
                · rw [if_pos hz2] at hy; exact Or.inl hy
                · rw [if_neg hz2] at hy
                  rcases List.mem_append.mp hy with hy2 | hy2
                  · exact Or.inl hy2
                  · right
                    have hyeq : y = { boneA := i
                                      boneB := j
                                      rb0 := (bodyBone body0 i).ptr
                                      rb1 := (bodyBone body1 j).ptr
                                      worldA := vscale (1 / (buf (i, j)).weight)
                                        (buf (i, j)).posA
                                      worldB := vscale (1 / (buf (i, j)).weight)
                                        (buf (i, j)).posB
                                      normalScaled := vscale (1 / (buf (i, j)).weight)
                                        (buf (i, j)).normal } :=
                      List.mem_singleton.mp hy2
                    subst hyeq
                    refine ⟨hcanA, hcanB, ?_, rfl, rfl, hr⟩
                    intro hboth
                    exact hk (by simp [hboth.1, hboth.2])
      · have hcanB2 : body0.canCollideWith (bodyBone body1 j).ptr = false :=
          Bool.eq_false_iff.mpr hcanB
        simp only [hcanB2, Bool.not_false, if_true] at hy
        exact Or.inl hy
    · have hcanA2 : body1.canCollideWith (bodyBone body0 i).ptr = false :=
        Bool.eq_false_iff.mpr hcanA
      simp only [hcanA2, Bool.not_false, if_true] at hx
      exact Or.inl hx
  have hres := foldl_mem_or _ (emitInv body0 body1) houter
    (List.range body0.skinnedBones.length) [] pt h
  rcases hres with h2 | h2
  · exact absurd h2 (List.not_mem_nil pt)
  · exact h2

/-- C6: no manifold point is ever emitted by `apply` for a bone pair in
which both bones are kinematic, nor for a bone pair whose two bones resolve
to the same underlying rigid body. -/
theorem c6_no_kinematic_or_self_pair_emitted (body0 body1 : SkinnedMeshBody)
    (buf : MergeBuffer) (pt : EmitPoint)
    (h : pt ∈ applyEmits body0 body1 buf) :
    (pt.rb0 = (bodyBone body0 pt.boneA).ptr ∧
     pt.rb1 = (bodyBone body1 pt.boneB).ptr) ∧
    ¬((bodyBone body0 pt.boneA).isKinematic = true ∧
      (bodyBone body1 pt.boneB).isKinematic = true) ∧
    pt.rb0 ≠ pt.rb1 := by
  rcases mem_applyEmits body0 body1 buf pt h with ⟨_, _, hk, hr0, hr1, hne⟩
  exact ⟨⟨hr0, hr1⟩, hk, hne⟩

/-- Closed instance of C6: on one-bone non-kinematic bodies over distinct
rigid bodies, the emitted point indeed has distinct rigid bodies and a
non-kinematic pair. -/
theorem c6_no_kinematic_or_self_pair_emitted_witness :
    ptW ∈ applyEmits bodyW0 bodyW1 bufW1 ∧
    ((ptW.rb0 = (bodyBone bodyW0 ptW.boneA).ptr ∧
      ptW.rb1 = (bodyBone bodyW1 ptW.boneB).ptr) ∧
    ¬((bodyBone bodyW0 ptW.boneA).isKinematic = true ∧
      (bodyBone bodyW1 ptW.boneB).isKinematic = true) ∧
    ptW.rb0 ≠ ptW.rb1) :=
  ⟨by decide,
   c6_no_kinematic_or_self_pair_emitted bodyW0 bodyW1 bufW1 ptW (by decide)⟩

/-- C10: `apply` emits a point for bone pair `(i, j)` only if `body1`
reports it can collide with bone i's rigid body and `body0` reports it can
collide with bone j's rigid body. -/
theorem c10_canCollideWith_guards_emission (body0 body1 : SkinnedMeshBody)
    (buf : MergeBuffer) (pt : EmitPoint)
    (h : pt ∈ applyEmits body0 body1 buf) :
    body1.canCollideWith (bodyBone body0 pt.boneA).ptr = true ∧
    body0.canCollideWith (bodyBone body1 pt.boneB).ptr = true := by
  rcases mem_applyEmits body0 body1 buf pt h with ⟨h1, h2, _⟩
  exact ⟨h1, h2⟩

/-- Closed instance of C10 on the same one-bone bodies. -/
theorem c10_canCollideWith_guards_emission_witness :
    ptW ∈ applyEmits bodyW0 bodyW1 bufW1 ∧
    (bodyW1.canCollideWith (bodyBone bodyW0 ptW.boneA).ptr = true ∧
     bodyW0.canCollideWith (bodyBone bodyW1 ptW.boneB).ptr = true) :=
  ⟨by decide,
   c10_canCollideWith_guards_emission bodyW0 bodyW1 bufW1 ptW (by decide)⟩

lemma vle_trans {a b c : Vec3} (h1 : vle a b = true) (h2 : vle b c = true) :
    vle a c = true := by
  simp only [vle, Bool.and_eq_true, decide_eq_true_eq] at h1 h2 ⊢
  exact ⟨⟨le_trans h1.1.1 h2.1.1, le_trans h1.1.2 h2.1.2⟩,
    le_trans h1.2 h2.2⟩

lemma vle_refl (a : Vec3) : vle a a = true := by
  simp [vle]

lemma containsB_refl (x : Aabb) : containsB x x = true := by
  simp [containsB, vle_refl]

lemma aabbCollide_symm (x y : Aabb) : aabbCollide x y = aabbCollide y x := by
  simp only [aabbCollide]
  exact Bool.and_comm _ _

lemma aabbCollide_mono {x y z : Aabb} (hxy : aabbCollide x y = true)
    (hyz : containsB z y = true) : aabbCollide x z = true := by
  simp only [aabbCollide, containsB, Bool.and_eq_true] at hxy hyz ⊢
  exact ⟨vle_trans hxy.1 hyz.2, vle_trans hyz.1 hxy.2⟩

lemma contains_mergeAabb_right (y x : Aabb) :
    containsB (mergeAabb y x) x = true := by
  simp [containsB, mergeAabb, vle, vmin, vmax]

lemma contains_mergeAabb_mono {m x : Aabb} (y : Aabb)
    (h : containsB m x = true) : containsB (mergeAabb m y) x = true := by
  simp only [containsB, mergeAabb, vle, vmin, vmax, Bool.and_eq_true,
    decide_eq_true_eq] at h ⊢
  obtain ⟨⟨⟨a1, a2⟩, a3⟩, ⟨b1, b2⟩, b3⟩ := h
  refine ⟨⟨⟨?_, ?_⟩, ?_⟩, ⟨?_, ?_⟩, ?_⟩
  · exact le_trans (min_le_left _ _) a1
  · exact le_trans (min_le_left _ _) a2
  · exact le_trans (min_le_left _ _) a3
  · exact le_trans b1 (le_max_left _ _)
  · exact le_trans b2 (le_max_left _ _)
  · exact le_trans b3 (le_max_left _ _)

lemma mergeBoxes_preserve (l : List Aabb) :
    ∀ (m0 x : Aabb), containsB m0 x = true →
      ∃ m, (l.foldl (fun acc x =>
          some (match acc with
                | none => x
                | some y => mergeAabb y x)) (some m0)) = some m ∧
        containsB m x = true := by
  induction l with
  | nil => intro m0 x h; exact ⟨m0, rfl, h⟩
  | cons y l ih =>
    intro m0 x h
    rw [List.foldl_cons]
    exact ih (mergeAabb m0 y) x (contains_mergeAabb_mono y h)

lemma mergeBoxes_mem_aux (l : List Aabb) :
    ∀ (acc x : Aabb), x ∈ l →
      ∃ m, (l.foldl (fun acc x =>
          some (match acc with
                | none => x
                | some y => mergeAabb y x)) (some acc)) = some m ∧
        containsB m x = true := by
  induction l with
  | nil => intro acc x h; exact absurd h (List.not_mem_nil x)
  | cons y l ih =>
    intro acc x h
    rw [List.foldl_cons]
    rcases List.mem_cons.mp h with rfl | h2
    · exact mergeBoxes_preserve l (mergeAabb acc x) x
        (contains_mergeAabb_right acc x)
    · exact ih (mergeAabb acc y) x h2

lemma mergeBoxes_mem (l : List Aabb) (x : Aabb) (h : x ∈ l) :
    ∃ m, mergeBoxes l = some m ∧ containsB m x = true := by
  cases l with
  | nil => exact absurd h (List.not_mem_nil x)
  | cons y l =>
    rw [mergeBoxes, List.foldl_cons]
    rcases List.mem_cons.mp h with rfl | h2
    · exact mergeBoxes_preserve l x x (containsB_refl x)
    · exact mergeBoxes_mem_aux l y x h2

lemma pairChk_eq_some (boxA boxB : ℕ → Aabb)
    (chk : ℕ → ℕ → Option CollisionResult) (i j : ℕ) (x : CollisionResult) :
    pairChk boxA boxB chk i j = some x ↔
      aabbCollide (boxA i) (boxB j) = true ∧ chk i j = some x := by
  unfold pairChk
  by_cases h : aabbCollide (boxA i) (boxB j) = true
  · simp [h]
  · simp [h]

lemma mem_succAll (asize bsize : ℕ) (boxA boxB : ℕ → Aabb)
    (chk : ℕ → ℕ → Option CollisionResult) (x : CollisionResult) :
    x ∈ succAll asize bsize boxA boxB chk ↔
      ∃ i j, i < asize ∧ j < bsize ∧
        aabbCollide (boxA i) (boxB j) = true ∧ chk i j = some x := by
  simp only [succAll, List.mem_flatMap, List.mem_filterMap, List.mem_range]
  constructor
  · rintro ⟨i, hi, j, hj, hp⟩
    rcases (pairChk_eq_some boxA boxB chk i j x).mp hp with ⟨h1, h2⟩
    exact ⟨i, j, hi, hj, h1, h2⟩
  · rintro ⟨i, j, hi, hj, h1, h2⟩
    exact ⟨i, hi, j, hj, (pairChk_eq_some boxA boxB chk i j x).mpr ⟨h1, h2⟩⟩

lemma listARef_mem (asize : ℕ) (boxA : ℕ → Aabb) (aabbMeB : Aabb) (i : ℕ) :
    i ∈ listARef asize boxA aabbMeB ↔
      i < asize ∧ aabbCollide (boxA i) aabbMeB = true := by
  simp [listARef, List.mem_filter, List.mem_range]

lemma mem_succRef (asize bsize : ℕ) (boxA boxB : ℕ → Aabb) (aabbMeB : Aabb)
    (chk : ℕ → ℕ → Option CollisionResult)
    (hB : ∀ j, j < bsize → containsB aabbMeB (boxB j) = true)
    (x : CollisionResult) :
    x ∈ succRef asize bsize boxA boxB aabbMeB chk ↔
      ∃ i j, i < asize ∧ j < bsize ∧
        aabbCollide (boxA i) (boxB j) = true ∧ chk i j = some x := by
  constructor
  · intro hx
    rcases List.mem_flatMap.mp hx with ⟨i, hiA2, hx2⟩
    rcases List.mem_filterMap.mp hx2 with ⟨j, hjB, hp⟩
    rcases (pairChk_eq_some boxA boxB chk i j x).mp hp with ⟨h1, h2⟩
    have hiA : i ∈ listARef asize boxA aabbMeB := by
      unfold listA2Ref at hiA2
      by_cases hE : (listBRef asize bsize boxA boxB aabbMeB).isEmpty = true
      · rwa [if_pos hE] at hiA2
      · rw [if_neg hE] at hiA2
        exact (List.mem_filter.mp hiA2).1
    have hjlt : j < bsize := by
      unfold listBRef at hjB
      by_cases hE : (listARef asize boxA aabbMeB).isEmpty = true
      · rw [if_pos hE] at hjB
        exact absurd hjB (List.not_mem_nil j)
      · rw [if_neg hE] at hjB
        exact List.mem_range.mp (List.mem_filter.mp hjB).1
    exact ⟨i, j, ((listARef_mem asize boxA aabbMeB i).mp hiA).1, hjlt, h1, h2⟩
  · rintro ⟨i, j, hi, hj, hcol, hchk⟩
    have hiA : i ∈ listARef asize boxA aabbMeB := by
      rw [listARef_mem]
      exact ⟨hi, aabbCollide_mono hcol (hB j hj)⟩
    rcases mergeBoxes_mem ((listARef asize boxA aabbMeB).map boxA) (boxA i)
      (List.mem_map_of_mem boxA hiA) with ⟨mA, hmA, hcA⟩
    have hjB : j ∈ listBRef asize bsize boxA boxB aabbMeB := by
      unfold listBRef
      rw [if_neg (by rw [List.isEmpty_iff]; exact List.ne_nil_of_mem hiA)]
      rw [List.mem_filter]
      refine ⟨List.mem_range.mpr hj, ?_⟩
      unfold aabbARef
      rw [hmA]
      show aabbCollide (boxB j) mA = true
      refine aabbCollide_mono ?_ hcA
      rw [aabbCollide_symm]
      exact hcol
    rcases mergeBoxes_mem
      ((listBRef asize bsize boxA boxB aabbMeB).map boxB) (boxB j)
      (List.mem_map_of_mem boxB hjB) with ⟨mB, hmB, hcB⟩
    have hiA2 : i ∈ listA2Ref asize bsize boxA boxB aabbMeB := by
      unfold listA2Ref
      rw [if_neg (by rw [List.isEmpty_iff]; exact List.ne_nil_of_mem hjB)]
      rw [List.mem_filter]
      refine ⟨hiA, ?_⟩
      unfold aabbBRef
      rw [hmB]
      show aabbCollide (boxA i) mB = true
      exact aabbCollide_mono hcol hcB
    refine List.mem_flatMap.mpr ⟨i, hiA2, ?_⟩
    refine List.mem_filterMap.mpr ⟨j, hjB, ?_⟩
    exact (pairChk_eq_some boxA boxB chk i j x).mpr ⟨hcol, hchk⟩

lemma mem_succCPU (asize bsize : ℕ) (boxA boxB : ℕ → Aabb)
    (aabbMeA aabbMeB : Aabb) (chk : ℕ → ℕ → Option CollisionResult)
    (hA : ∀ i, i < asize → containsB aabbMeA (boxA i) = true)
    (hB : ∀ j, j < bsize → containsB aabbMeB (boxB j) = true)
    (x : CollisionResult) :
    x ∈ succCPU asize bsize boxA boxB aabbMeA aabbMeB chk ↔
      ∃ i j, i < asize ∧ j < bsize ∧
        aabbCollide (boxA i) (boxB j) = true ∧ chk i j = some x := by
  unfold succCPU
  by_cases hsz : bsize < asize
  · rw [if_pos hsz]
    constructor
    · intro hx
      rcases List.mem_flatMap.mp hx with ⟨i, hi, hx2⟩
      rcases List.mem_filterMap.mp hx2 with ⟨j, hj, hp⟩
      rcases (pairChk_eq_some boxA boxB chk i j x).mp hp with ⟨h1, h2⟩
      exact ⟨i, j, List.mem_range.mp (List.mem_filter.mp hi).1,
        List.mem_range.mp (List.mem_filter.mp hj).1, h1, h2⟩
    · rintro ⟨i, j, hi, hj, hcol, hchk⟩
      refine List.mem_flatMap.mpr ⟨i, ?_, List.mem_filterMap.mpr
        ⟨j, ?_, (pairChk_eq_some boxA boxB chk i j x).mpr ⟨hcol, hchk⟩⟩⟩
      · rw [List.mem_filter]
        exact ⟨List.mem_range.mpr hi, aabbCollide_mono hcol (hB j hj)⟩
      · rw [List.mem_filter]
        refine ⟨List.mem_range.mpr hj, ?_⟩
        refine aabbCollide_mono ?_ (hA i hi)
        rw [aabbCollide_symm]
        exact hcol
  · rw [if_neg hsz]
    constructor
    · intro hx
      rcases List.mem_flatMap.mp hx with ⟨j, hj, hx2⟩
      rcases List.mem_filterMap.mp hx2 with ⟨i, hi, hp⟩
      rcases (pairChk_eq_some boxA boxB chk i j x).mp hp with ⟨h1, h2⟩
      exact ⟨i, j, List.mem_range.mp (List.mem_filter.mp hi).1,
        List.mem_range.mp (List.mem_filter.mp hj).1, h1, h2⟩
    · rintro ⟨i, j, hi, hj, hcol, hchk⟩
      refine List.mem_flatMap.mpr ⟨j, ?_, List.mem_filterMap.mpr
        ⟨i, ?_, (pairChk_eq_some boxA boxB chk i j x).mpr ⟨hcol, hchk⟩⟩⟩
      · rw [List.mem_filter]
        refine ⟨List.mem_range.mpr hj, ?_⟩
        refine aabbCollide_mono ?_ (hA i hi)
        rw [aabbCollide_symm]
        exact hcol
      · rw [List.mem_filter]
        exact ⟨List.mem_range.mpr hi, aabbCollide_mono hcol (hB j hj)⟩

lemma foldBest_aux (l : List CollisionResult) :
    ∀ r : CollisionResult,
      ∃ c, l.foldl bestStep (some r) = some c ∧ (c = r ∨ c ∈ l) ∧
        c.depth ≤ r.depth ∧ ∀ x ∈ l, c.depth ≤ x.depth := by
  induction l with
  | nil =>
    intro r
    exact ⟨r, rfl, Or.inl rfl, le_refl _,
      fun x hx => absurd hx (List.not_mem_nil x)⟩
  | cons y l ih =>
    intro r
    rw [List.foldl_cons]
    by_cases hd : r.depth > y.depth
    · have hstep : bestStep (some r) y = some y := by
        simp [bestStep, hd]
      rw [hstep]
      rcases ih y with ⟨c, hc1, hc2, hc3, hc4⟩
      refine ⟨c, hc1, ?_, le_trans hc3 (le_of_lt hd), ?_⟩
      · rcases hc2 with rfl | h2
        · exact Or.inr (List.mem_cons_self _ _)
        · exact Or.inr (List.mem_cons_of_mem _ h2)
      · intro x hx
        rcases List.mem_cons.mp hx with rfl | hx2
        · exact hc3
        · exact hc4 x hx2
    · have hstep : bestStep (some r) y = some r := by
        simp [bestStep, hd]
      rw [hstep]
      rcases ih r with ⟨c, hc1, hc2, hc3, hc4⟩
      refine ⟨c, hc1, ?_, hc3, ?_⟩
      · rcases hc2 with rfl | h2
        · exact Or.inl rfl
        · exact Or.inr (List.mem_cons_of_mem _ h2)
      · intro x hx
        rcases List.mem_cons.mp hx with rfl | hx2
        · exact le_trans hc3 (le_of_not_lt hd)
        · exact hc4 x hx2

lemma foldBest_ne_nil (l : List CollisionResult) (h : l ≠ []) :
    ∃ c, foldBest l = some c ∧ c ∈ l ∧ ∀ x ∈ l, c.depth ≤ x.depth := by
  cases l with
  | nil => exact absurd rfl h
  | cons y l =>
    rw [foldBest, List.foldl_cons]
    rcases foldBest_aux l y with ⟨c, h1, h2, h3, h4⟩
    refine ⟨c, h1, ?_, ?_⟩
    · rcases h2 with rfl | h2
      · exact List.mem_cons_self _ _
      · exact List.mem_cons_of_mem _ h2
    · intro x hx
      rcases List.mem_cons.mp hx with rfl | hx2
      · exact h3
      · exact h4 x hx2

/-- C7: for one coarse pair over any fixed candidate universe (any collider
boxes whose bodies' own bounding boxes contain them, and any geometry
checker), the single-pass e_CPU variant and the iterative-tightening
e_CPURefactored variant submit the same best-of-pair contact: the unique
contact of most negative depth among the overlapping collider pairs, or
none when no pair overlaps. -/
theorem c7_single_pass_equals_iterative_tightening (asize bsize : ℕ)
    (boxA boxB : ℕ → Aabb) (aabbMeA aabbMeB : Aabb)
    (chk : ℕ → ℕ → Option CollisionResult)
    (hA : ∀ i, i < asize → containsB aabbMeA (boxA i) = true)
    (hB : ∀ j, j < bsize → containsB aabbMeB (boxB j) = true)
    (huniq : ∀ c ∈ succAll asize bsize boxA boxB chk,
      ∀ c2 ∈ succAll asize bsize boxA boxB chk,
      (∀ d ∈ succAll asize bsize boxA boxB chk, c.depth ≤ d.depth) →
      (∀ d ∈ succAll asize bsize boxA boxB chk, c2.depth ≤ d.depth) →
      c = c2) :
    cpuBest asize bsize boxA boxB aabbMeA aabbMeB chk =
      refactoredBest asize bsize boxA boxB aabbMeB chk := by
  have hcpu : ∀ x, x ∈ succCPU asize bsize boxA boxB aabbMeA aabbMeB chk ↔
      x ∈ succAll asize bsize boxA boxB chk := fun x =>
    (mem_succCPU asize bsize boxA boxB aabbMeA aabbMeB chk hA hB x).trans
      (mem_succAll asize bsize boxA boxB chk x).symm
  have href : ∀ x, x ∈ succRef asize bsize boxA boxB aabbMeB chk ↔
      x ∈ succAll asize bsize boxA boxB chk := fun x =>
    (mem_succRef asize bsize boxA boxB aabbMeB chk hB x).trans
      (mem_succAll asize bsize boxA boxB chk x).symm
  by_cases hnil : succAll asize bsize boxA boxB chk = []
  · have h1 : succCPU asize bsize boxA boxB aabbMeA aabbMeB chk = [] :=
      List.eq_nil_iff_forall_not_mem.mpr (fun x hx =>
        (List.eq_nil_iff_forall_not_mem.mp hnil x) ((hcpu x).mp hx))
    have h2 : succRef asize bsize boxA boxB aabbMeB chk = [] :=
      List.eq_nil_iff_forall_not_mem.mpr (fun x hx =>
        (List.eq_nil_iff_forall_not_mem.mp hnil x) ((href x).mp hx))
    rw [cpuBest, refactoredBest, h1, h2]
  · rcases List.exists_mem_of_ne_nil _ hnil with ⟨w, hw⟩
    have h1 : succCPU asize bsize boxA boxB aabbMeA aabbMeB chk ≠ [] :=
      List.ne_nil_of_mem ((hcpu w).mpr hw)
    have h2 : succRef asize bsize boxA boxB aabbMeB chk ≠ [] :=
      List.ne_nil_of_mem ((href w).mpr hw)
    rcases foldBest_ne_nil _ h1 with ⟨c1, hc1, hc1m, hc1min⟩
    rcases foldBest_ne_nil _ h2 with ⟨c2, hc2, hc2m, hc2min⟩
    rw [cpuBest, refactoredBest, hc1, hc2]
    have : c1 = c2 := by
      refine huniq c1 ((hcpu c1).mp hc1m) c2 ((href c2).mp hc2m) ?_ ?_
      · intro d hd
        exact hc1min d ((hcpu d).mpr hd)
      · intro d hd
        exact hc2min d ((href d).mpr hd)
    rw [this]

/-- Closed instance of C7: single overlapping unit-box pair, a checker
reporting one contact; both variants submit it. -/
theorem c7_single_pass_equals_iterative_tightening_witness :
    (∀ i, i < 1 → containsB boxW ((fun _ => boxW) i) = true) ∧
    (∀ j, j < 1 → containsB boxW ((fun _ => boxW) j) = true) ∧
    (∀ c ∈ succAll 1 1 (fun _ => boxW) (fun _ => boxW) (fun _ _ => some default),
      ∀ c2 ∈ succAll 1 1 (fun _ => boxW) (fun _ => boxW) (fun _ _ => some default),
      (∀ d ∈ succAll 1 1 (fun _ => boxW) (fun _ => boxW) (fun _ _ => some default),
        c.depth ≤ d.depth) →
      (∀ d ∈ succAll 1 1 (fun _ => boxW) (fun _ => boxW) (fun _ _ => some default),
        c2.depth ≤ d.depth) → c = c2) ∧
    cpuBest 1 1 (fun _ => boxW) (fun _ => boxW) boxW boxW
        (fun _ _ => some default) =
      refactoredBest 1 1 (fun _ => boxW) (fun _ => boxW) boxW
        (fun _ _ => some default) :=
  ⟨by decide, by decide, by decide,
   c7_single_pass_equals_iterative_tightening 1 1 (fun _ => boxW)
     (fun _ => boxW) boxW boxW (fun _ _ => some default)
     (by decide) (by decide) (by decide)⟩

/-- C8: if the triangle constructed from the three vertex positions is
degenerate (zero-area, hence invalid), the sphere-triangle `checkCollide`
returns no contact, whatever the sphere-triangle routine would have
reported. -/
theorem c8_degenerate_triangle_yields_no_contact
    (cst : Vec3 → ℚ → CheckTriangle → Option CollisionResult)
    (v0 v1 : ℕ → VertexPos) (sp0 : ShapePropV) (sp1 : ShapePropT)
    (a b : Collider)
    (h : vdot (vcross (vsub (v1 b.vertices.2.1).pos (v1 b.vertices.1).pos)
        (vsub (v1 b.vertices.2.2).pos (v1 b.vertices.1).pos))
      (vcross (vsub (v1 b.vertices.2.1).pos (v1 b.vertices.1).pos)
        (vsub (v1 b.vertices.2.2).pos (v1 b.vertices.1).pos)) = 0) :
    checkCollidePT cst v0 v1 sp0 sp1 a b = none := by
  simp [checkCollidePT, mkCheckTriangle, h]

/-- Closed instance of C8: a collinear triangle over the x axis suppresses
even an always-colliding sphere-triangle routine. -/
theorem c8_degenerate_triangle_yields_no_contact_witness :
    (vdot (vcross (vsub (degenV1 colliderT.vertices.2.1).pos
        (degenV1 colliderT.vertices.1).pos)
        (vsub (degenV1 colliderT.vertices.2.2).pos
        (degenV1 colliderT.vertices.1).pos))
      (vcross (vsub (degenV1 colliderT.vertices.2.1).pos
        (degenV1 colliderT.vertices.1).pos)
        (vsub (degenV1 colliderT.vertices.2.2).pos
        (degenV1 colliderT.vertices.1).pos)) = 0) ∧
    checkCollidePT cstAlways scenarioV0 degenV1 ⟨1⟩ ⟨1, 1⟩ collider0
      colliderT = none :=
  ⟨by decide,
   c8_degenerate_triangle_yields_no_contact cstAlways scenarioV0 degenV1
     ⟨1⟩ ⟨1, 1⟩ collider0 colliderT (by decide)⟩

/-- Closed instance of C5 at capacity 1 from the fresh sink. -/
theorem c5_swap_adapter_mirrors_result_witness :
    freshSink.numResults < 1 ∧
    ((addResult 1 freshSink default).1.stored = freshSink.stored ++ [default] ∧
    (addResultSwap 1 freshSink default).1.stored = freshSink.stored ++
      [{ posA := (default : CollisionResult).posB
         posB := (default : CollisionResult).posA
         normOnB := vneg (default : CollisionResult).normOnB
         depth := (default : CollisionResult).depth
         colliderA := (default : CollisionResult).colliderB
         colliderB := (default : CollisionResult).colliderA }] ∧
    (addResultSwap 1 freshSink default).2 = (addResult 1 freshSink default).2) :=
  ⟨by decide, c5_swap_adapter_mirrors_result 1 freshSink default (by decide)⟩

end Hdt
